import Mathlib

/-!
Verification development for the Snitch static-analysis pipeline
(bleed-cli scanner, semantic analyzer, cross-file analyzer).

The JavaScript sources are embedded shallowly: file contents and paths are
lists of characters, scores are rationals, the regular expressions that the
source applies are translated into explicit scanning functions with the same
matching semantics, and the mutable maps of the cross-file analyzer become
explicit state records threaded through the computation.  External inputs
(the signature catalog and the babel parse result) are parameters, matching
the specification, which places both outside the core.
-/

namespace Snitch

/-- File contents, paths and evidence strings are modelled as lists of
characters, so that every operation of the source (indexOf, substring,
split, includes) can be written as an executable function. -/
abbrev Str := List Char

/-- Whitespace test matching the JavaScript regular expression class \s
on ASCII input (space, tab, newline, carriage return, vertical tab,
form feed). -/
def isJsWs (c : Char) : Bool :=
  c = ' ' || c = '\t' || c = '\n' || c = '\r' || c = Char.ofNat 11 || c = Char.ofNat 12

/-- Word-character test matching the JavaScript class \w. -/
def isWordChar (c : Char) : Bool :=
  (('a' ≤ c && c ≤ 'z') || ('A' ≤ c && c ≤ 'Z') || ('0' ≤ c && c ≤ '9') || c = '_')

/-- Hexadecimal-digit test matching the class group 0-9a-fA-F. -/
def isHexDigit (c : Char) : Bool :=
  (('0' ≤ c && c ≤ '9') || ('a' ≤ c && c ≤ 'f') || ('A' ≤ c && c ≤ 'F'))

/-- Lower-casing of a string, matching String.prototype.toLowerCase on
ASCII input. -/
def toLowerStr (s : Str) : Str := s.map Char.toLower

/-- Decides whether pat is a prefix of s. -/
def prefixCheck : (pat : Str) → (s : Str) → Bool
  | [], _ => true
  | _ :: _, [] => false
  | p :: ps, c :: cs => if p = c then prefixCheck ps cs else false

/-- Decides whether pat occurs as a contiguous substring of hay, the
semantics of String.prototype.includes and of a literal-alternation
regular-expression test. -/
def containsSub : (hay : Str) → (pat : Str) → Bool
  | hay, pat =>
    match hay with
    | [] => pat.isEmpty
    | _ :: rest => prefixCheck pat hay || containsSub rest pat

/-- Decides whether any of the given literals occurs in hay, the semantics
of a regular-expression test with a literal alternation. -/
def containsAny (hay : Str) (pats : List Str) : Bool :=
  pats.any (fun p => containsSub hay p)

/-- First index of pat inside hay, or -1, the semantics of
String.prototype.indexOf. -/
def jsIndexOfGo (pat : Str) : (i : Nat) → (s : Str) → Int
  | i, s =>
    if prefixCheck pat s then (i : Int)
    else match s with
      | [] => -1
      | _ :: rest => jsIndexOfGo pat (i + 1) rest

/-- Index of the first occurrence of pat in hay, or -1 when absent. -/
def jsIndexOf (hay pat : Str) : Int := jsIndexOfGo pat 0 hay

/-- Content prefix before an index, the semantics of
String.prototype.substring(0, i), which clamps a negative index to 0. -/
def substrTo (s : Str) (i : Int) : Str := s.take i.toNat

/-- Splitting on a separator character, the semantics of
String.prototype.split: the result is always non-empty. -/
def splitOnChar (sep : Char) : Str → List Str
  | [] => [[]]
  | c :: rest =>
    let r := splitOnChar sep rest
    if c = sep then [] :: r
    else match r with
      | [] => [[c]]
      | h :: t => (c :: h) :: t

/-- Last element of a list with a default, used for
lines[lines.length - 1] followed by the || fallback in the source. -/
def getLastD : List Str → Str
  | [] => []
  | [x] => x
  | _ :: y :: t => getLastD (y :: t)

/-- Trim of leading whitespace. -/
def trimStartStr (s : Str) : Str := s.dropWhile isJsWs

/-- Trim of leading and trailing whitespace, the semantics of
String.prototype.trim on ASCII input. -/
def jsTrim (s : Str) : Str :=
  ((s.dropWhile isJsWs).reverse.dropWhile isJsWs).reverse

/-- Decides whether s starts with pat (String.prototype.startsWith). -/
def startsWithStr (s pat : Str) : Bool := prefixCheck pat s

/-- Decides whether s ends with pat (String.prototype.endsWith). -/
def endsWithStr (s pat : Str) : Bool := prefixCheck pat.reverse s.reverse

/-- Fuel-driven count of the non-overlapping left-to-right occurrences of a
literal pattern, the semantics of content.match(literal regex with the g
flag).length with || [] for no match. -/
def countSubGo (pat : Str) : (fuel : Nat) → (s : Str) → Nat
  | 0, _ => 0
  | _ + 1, [] => 0
  | fuel + 1, s@(_ :: rest) =>
    if prefixCheck pat s then 1 + countSubGo pat fuel (s.drop pat.length)
    else countSubGo pat fuel rest

/-- Number of non-overlapping occurrences of pat in hay. -/
def countSub (hay pat : Str) : Nat := countSubGo pat hay.length hay

/-- Positions (0-based indices) of the non-overlapping left-to-right
occurrences of a literal pattern, the match positions a global literal
regular expression produces. -/
def literalPositionsGo (pat : Str) : (fuel : Nat) → (i : Nat) → (s : Str) → List Nat
  | 0, _, _ => []
  | _ + 1, _, [] => []
  | fuel + 1, i, s@(_ :: rest) =>
    if pat ≠ [] && prefixCheck pat s then
      i :: literalPositionsGo pat fuel (i + pat.length) (s.drop pat.length)
    else literalPositionsGo pat fuel (i + 1) rest

/-- Match positions of the literal pattern pat over content. -/
def literalPositions (pat content : Str) : List Nat :=
  literalPositionsGo pat content.length 0 content

/-- Matched substrings of the literal pattern pat over content: the result
of content.match(escaped-literal regex with the g flag), each element being
the matched text. -/
def literalMatches (pat content : Str) : List Str :=
  (literalPositions pat content).map (fun _ => pat)

/-- Path component after the last slash, the semantics of path.basename
for the forward-slash paths this pipeline sees. -/
def basenameStr (p : Str) : Str :=
  (p.reverse.takeWhile (fun c => c ≠ '/')).reverse

/-- Directory part of a path, the semantics of path.dirname for
forward-slash paths: text before the last slash, a dot when there is no
slash, and the root slash when the slash is leading. -/
def dirnameStr (p : Str) : Str :=
  let r := p.reverse.dropWhile (fun c => c ≠ '/')
  match r with
  | [] => ['.']
  | _ :: tail => if tail = [] then ['/'] else tail.reverse

/-- Removal of one trailing source extension, the semantics of
replace(backslash.(js|ts|jsx|tsx)$, empty): the four suffixes are mutually
exclusive, so removing the first that matches equals the regex behaviour. -/
def stripExt (s : Str) : Str :=
  if endsWithStr s ".jsx".toList then s.take (s.length - 4)
  else if endsWithStr s ".tsx".toList then s.take (s.length - 4)
  else if endsWithStr s ".js".toList then s.take (s.length - 3)
  else if endsWithStr s ".ts".toList then s.take (s.length - 3)
  else s

/-- Removal of trailing digits and underscores, the semantics of
replace([digits-underscore]+$, empty). -/
def stripTrailingDigitsUnderscore (s : Str) : Str :=
  (s.reverse.dropWhile (fun c => ('0' ≤ c && c ≤ '9') || c = '_')).reverse

/-- Insertion-ordered removal of duplicates, the semantics of building a
JavaScript Set from a list and spreading it back to an array. -/
def dedupKeepFirst : List Str → List Str
  | [] => []
  | x :: rest =>
    let r := dedupKeepFirst rest
    x :: r.filter (fun y => y ≠ x)

/-- Extension of a path, the semantics of path.extname: the segment of the
basename from its last dot, empty when there is no dot or when the only dot
is leading. -/
def extnameStr (p : Str) : Str :=
  let b := basenameStr p
  let afterRev := b.reverse.takeWhile (fun c => c ≠ '.')
  if afterRev.length = b.length then []
  else if b.length = afterRev.length + 1 ∧ startsWithStr b (".".toList) then []
  else '.' :: afterRev.reverse

/-- Decides whether s contains a run of at least 20 consecutive hexadecimal
digits, the semantics of the test [a-fA-F0-9]{20,}. -/
def hasHexRun20 (s : Str) : Bool :=
  let rec go : (run : Nat) → Str → Bool
    | run, [] => run ≥ 20
    | run, c :: rest =>
      if run ≥ 20 then true
      else if isHexDigit c then go (run + 1) rest
      else go 0 rest
  go 0 s

/-- Decides whether s contains a backslash-u unicode escape followed by four
hexadecimal digits. -/
def hasUnicodeEsc : Str → Bool
  | '\\' :: 'u' :: a :: b :: c :: d :: rest =>
    (isHexDigit a && isHexDigit b && isHexDigit c && isHexDigit d) ||
      hasUnicodeEsc ('u' :: a :: b :: c :: d :: rest)
  | _ :: rest => hasUnicodeEsc rest
  | [] => false

/-- Decides whether the keyword kw occurs in hay at a word boundary on both
sides, the semantics of a backslash-b delimited alternation. -/
def wordBoundaryContainsGo (kw : Str) : (prev : Option Char) → (s : Str) → Bool
  | _, [] => false
  | prev, s@(c :: rest) =>
    let boundaryBefore := match prev with
      | none => true
      | some pc => !(isWordChar pc)
    let after := s.drop kw.length
    let boundaryAfter := match after with
      | [] => true
      | ac :: _ => !(isWordChar ac)
    (boundaryBefore && prefixCheck kw s && boundaryAfter) ||
      wordBoundaryContainsGo kw (some c) rest

/-- Word-boundary containment of a single keyword. -/
def wordBoundaryContains (hay kw : Str) : Bool :=
  wordBoundaryContainsGo kw none hay

/-- Word-boundary containment of any keyword of a list. -/
def wordBoundaryAny (hay : Str) (kws : List Str) : Bool :=
  kws.any (fun k => wordBoundaryContains hay k)

/-- Strict equality of two possibly-undefined numbers, the semantics of the
JavaScript === operator on two values that are numbers or undefined. -/
def jsStrictEqOpt : Option Nat → Option Nat → Bool
  | some a, some b => a = b
  | none, none => true
  | _, _ => false

/-- Distance comparison for possibly-undefined line numbers: the semantics
of Math.abs(a - b) <= k, which is false when either side is undefined
because NaN comparisons are false. -/
def lineDistLe (a : Option Nat) (b : Nat) (k : Nat) : Bool :=
  match a with
  | some a => ((a : Int) - (b : Int)).natAbs ≤ k
  | none => false

/-- Decimal digits of a natural number, the semantics of template
interpolation of a number. -/
def natToStr (n : Nat) : Str := Nat.toDigits 10 n

/-- Replacement of every whitespace run by a single underscore, the
semantics of replace(backslash-s+ with the g flag, underscore). -/
def replaceWsRunsGo : (inRun : Bool) → Str → Str
  | _, [] => []
  | inRun, c :: rest =>
    if isJsWs c then
      if inRun then replaceWsRunsGo true rest
      else '_' :: replaceWsRunsGo true rest
    else c :: replaceWsRunsGo false rest

/-- Replacement of whitespace runs by underscores over a whole string. -/
def replaceWsRuns (s : Str) : Str := replaceWsRunsGo false s

/-- Lazy search for the literal b, failing when a newline is reached first:
the tail of a match of the pattern a.*?b where the dot does not match a
newline.  Returns the remaining text after b when found. -/
def seekNoNl (b : Str) : (fuel : Nat) → (s : Str) → Option Str
  | 0, _ => none
  | _ + 1, [] => if b = [] then some [] else none
  | fuel + 1, s@(c :: rest) =>
    if prefixCheck b s then some (s.drop b.length)
    else if c = '\n' then none
    else seekNoNl b fuel rest

/-- Global count of matches of the pattern a.*?b (dot not matching
newlines): at each position, a leftmost match consumes through the earliest
following b on the same line, and scanning resumes after it. -/
def countLazyPairGo (a b : Str) : (fuel : Nat) → (s : Str) → Nat
  | 0, _ => 0
  | _ + 1, [] => 0
  | fuel + 1, s@(_ :: rest) =>
    if prefixCheck a s then
      match seekNoNl b s.length (s.drop a.length) with
      | some rest2 => 1 + countLazyPairGo a b fuel rest2
      | none => countLazyPairGo a b fuel rest
    else countLazyPairGo a b fuel rest

/-- Count of matches of a.*?b over s. -/
def countLazyPair (a b s : Str) : Nat := countLazyPairGo a b s.length s

/-- Global count of matches of a literal alternation: at each position the
alternatives are tried in order, and a match is consumed whole. -/
def countAltGo (alts : List Str) : (fuel : Nat) → (s : Str) → Nat
  | 0, _ => 0
  | _ + 1, [] => 0
  | fuel + 1, s@(_ :: rest) =>
    match alts.find? (fun a => prefixCheck a s) with
    | some a => 1 + countAltGo alts fuel (s.drop a.length)
    | none => countAltGo alts fuel rest

/-- Count of matches of a literal alternation over s. -/
def countAlt (alts : List Str) (s : Str) : Nat := countAltGo alts s.length s

/-- Seek of a literal pattern returning the distance to the match and the
text after it. -/
def seekSub (pat : Str) : (fuel : Nat) → (k : Nat) → (s : Str) → Option (Nat × Str)
  | 0, _, _ => none
  | _ + 1, k, [] => if pat = [] then some (k, []) else none
  | fuel + 1, k, s@(_ :: rest) =>
    if prefixCheck pat s then some (k, s.drop pat.length)
    else seekSub pat fuel (k + 1) rest

/-- Total length of the fenced code blocks of content: the summed lengths
of the non-overlapping matches of three-backticks, lazy any-character run,
three-backticks. -/
def fencedGo : (fuel : Nat) → (s : Str) → Nat
  | 0, _ => 0
  | _ + 1, [] => 0
  | fuel + 1, s@(_ :: rest) =>
    if prefixCheck "```".toList s then
      match seekSub ("```".toList) s.length 0 (s.drop 3) with
      | some (k, rest2) => (3 + k + 3) + fencedGo fuel rest2
      | none => fencedGo fuel rest
    else fencedGo fuel rest

/-- Total fenced-code length of content. -/
def fencedBlocksLength (content : Str) : Nat := fencedGo content.length content

/-- Severity levels of the pipeline, the string enum of the source. -/
inductive Severity where
  | low
  | medium
  | high
  | critical
deriving DecidableEq

/-- Contextual modifier table of the external signature catalog
(signatures.contextualModifiers); a missing entry is undefined. -/
structure ContextModifiers where
  system_file : Option ℚ
  configuration : Option ℚ
  startup_script : Option ℚ
  core_module : Option ℚ
  network_handler : Option ℚ
deriving DecidableEq

/-- Falsy-aware defaulting of a modifier, the semantics of x || d for a
number x that may be undefined or zero. -/
def jsOrQ (v : Option ℚ) (d : ℚ) : ℚ :=
  match v with
  | none => d
  | some x => if x = 0 then d else x

/-- External configuration consumed by the scanner: the side tables of the
signature catalog and the option flags of the Scanner constructor. -/
structure ScanConfig where
  contextModifiers : ContextModifiers
  safePatterns : List Str
  agenticThreatWeights : List (Str × ℚ)
  enableSemanticAnalysis : Bool
  enableCrossFileAnalysis : Bool

/-- Lookup in the threat-weight table of the catalog. -/
def weightLookup (tbl : List (Str × ℚ)) (k : Str) : Option ℚ :=
  match tbl.find? (fun e => e.fst = k) with
  | some e => some e.snd
  | none => none

/-- Context score of a match, from AgenticThreatAnalyzer.analyzeContext:
starts at 1.0, multiplied by catalog modifiers keyed on filename and
directory tokens, then halved when a catalog-listed benign phrase occurs
anywhere in the file. -/
def analyzeContext (cfg : ScanConfig) (filePath content : Str) : ℚ :=
  let fileName := basenameStr filePath
  let dirName := dirnameStr filePath
  let c : ℚ := 1
  let c := if containsSub fileName "system".toList || containsSub fileName "kernel".toList then
      c * jsOrQ cfg.contextModifiers.system_file (3/2) else c
  let c := if containsSub fileName "config".toList || containsSub fileName "settings".toList then
      c * jsOrQ cfg.contextModifiers.configuration (13/10) else c
  let c := if containsSub fileName "init".toList || containsSub fileName "startup".toList ||
      containsSub fileName "boot".toList then
      c * jsOrQ cfg.contextModifiers.startup_script (9/5) else c
  let c := if containsSub dirName "core".toList || containsSub dirName "lib".toList then
      c * jsOrQ cfg.contextModifiers.core_module (8/5) else c
  let c := if containsSub fileName "network".toList || containsSub fileName "http".toList ||
      containsSub fileName "api".toList then
      c * jsOrQ cfg.contextModifiers.network_handler (7/5) else c
  let c := if cfg.safePatterns.any
      (fun sp => containsSub (toLowerStr content) (toLowerStr sp)) then c * (1/2) else c
  c

/-- Threat score of a match, from
AgenticThreatAnalyzer.calculateThreatScore: the base weight (0.5 when the
given weight is falsy), multiplied by the category threat weight when that
table entry is truthy, multiplied by the context score, capped at 2.0. -/
def calculateThreatScore (cfg : ScanConfig) (category : Str) (weight ctx : ℚ) : ℚ :=
  let base := if weight = 0 then 1/2 else weight
  let base := match weightLookup cfg.agenticThreatWeights category with
    | some w => if w = 0 then base else base * w
    | none => base
  let base := base * ctx
  min base 2

/-- Category key used for the threat-weight lookup:
name.toLowerCase().replace(whitespace-runs, underscore). -/
def categoryKey (name : Str) : Str := replaceWsRuns (toLowerStr name)

/-- Safe-context test of the scanner (Scanner.isInSafeContext): the text of
the current line before the match, trimmed, starts with a line-comment
marker, or the preceding text holds more block-comment openers than
closers. -/
def isInSafeContext (content : Str) (index : Int) : Bool :=
  let lines := splitOnChar '\n' (substrTo content index)
  let currentLine := getLastD lines
  let t := jsTrim currentLine
  if startsWithStr t "//".toList || startsWithStr t "#".toList ||
      startsWithStr t "*".toList then true
  else
    let before := substrTo content index
    decide (countSub before "/*".toList > countSub before "*/".toList)

/-- Line number of an index (Scanner.getLineNumber):
substring(0, index).split(newline).length, which is 1 plus the count of
newlines before the index. -/
def getLineNumber (content : Str) (index : Int) : Nat :=
  (splitOnChar '\n' (substrTo content index)).length

/-- The reserved malicious-fixture directory alternation of
Scanner.isTestOrExample. -/
def fixtureDirNames : List Str :=
  ["test-evil".toList, "test-malicious".toList,
   "fixtures-evil".toList, "fixtures-malicious".toList]

/-- Test/example suppression heuristic (Scanner.isTestOrExample): never
suppresses under a reserved malicious-fixture directory, then keyword
heuristics over the lowered path, then word-bounded keyword heuristics over
the content. -/
def isTestOrExample (filePath content : Str) : Bool :=
  let lowerPath := toLowerStr filePath
  if containsAny lowerPath fixtureDirNames then false
  else if containsAny lowerPath ["test".toList, "spec".toList, "example".toList,
      "demo".toList, "sample".toList, "mock".toList, ".test.".toList, ".spec.".toList] then true
  else if wordBoundaryAny (toLowerStr content) ["example".toList, "demo".toList,
      "sample".toList, "mock".toList, "placeholder".toList, "test case".toList] then true
  else false

/-- Documentation-density skip (Scanner.isMostlyDocumentation).  The source
compares codeLength / content.length < 0.2 with float division and then
requires content.length > 1000; over the naturals this is equivalent to
5 * codeLength < content.length (and at length 0 both forms are false, the
NaN comparison being false in the source). -/
def isMostlyDocumentation (content : Str) : Bool :=
  let codeLength := fencedBlocksLength content
  decide (5 * codeLength < content.length) && decide (content.length > 1000)

/-- Severity adjustment by threat score (Scanner.adjustSeverity). -/
def adjustSeverity (base : Severity) (threatScore : ℚ) : Severity :=
  if threatScore ≥ 9/5 then .critical
  else if threatScore ≥ 13/10 then .high
  else if threatScore ≥ 4/5 then .medium
  else base

/-- Synthetic whole-file threat record of
AgenticThreatAnalyzer.detectMultiThreatPatterns. -/
structure MultiThreat where
  mtype : Str
  severity : Severity
  evidence : Str
  score : ℚ
deriving DecidableEq

/-- Whole-file multi-indicator heuristics
(AgenticThreatAnalyzer.detectMultiThreatPatterns): instruction-override
matches over 2, encoding-call matches over 3, and at least 2 distinct
privilege-escalation keywords. -/
def detectMultiThreatPatterns (content : Str) : List MultiThreat :=
  let lower := toLowerStr content
  let overrideCount := countLazyPair "ignore".toList "instruction".toList lower
  let t1 : List MultiThreat :=
    if overrideCount > 2 then
      [⟨"repeated_instruction_override".toList, .critical,
        "Found ".toList ++ natToStr overrideCount ++ " instruction override attempts".toList,
        9/5⟩]
    else []
  let encodingCount := countAlt ["atob".toList, "buffer.from".toList, "fromcharcode".toList] lower
  let t2 : List MultiThreat :=
    if encodingCount > 3 then
      [⟨"complex_encoding_chain".toList, .high,
        "Found ".toList ++ natToStr encodingCount ++ " encoding/decoding operations".toList,
        3/2⟩]
    else []
  let escalationCount :=
    (["escalate".toList, "elevate".toList, "privilege".toList, "admin".toList,
      "root".toList].filter (fun k => containsSub lower k)).length
  let t3 : List MultiThreat :=
    if escalationCount ≥ 2 then
      [⟨"privilege_escalation_indicators".toList, .critical,
        "Found ".toList ++ natToStr escalationCount ++ " privilege escalation keywords".toList,
        17/10⟩]
    else []
  t1 ++ t2 ++ t3

/-- One detection event.  The six trailing fields are absent (none) on the
findings the Detector emits and are filled by the Semantic Enhancer; the
matched field holds the matched text (named match in the source, a reserved
word here). -/
structure Finding where
  severity : Severity
  category : Str
  pattern : Str
  file : Str
  line : Nat
  evidence : Str
  matched : Str
  threatScore : ℚ
  contextScore : ℚ
  isTestCode : Option Bool
  involvesUserInput : Option Bool
  isExported : Option Bool
  hasExternalDataFlow : Option Bool
  semanticScore : Option ℚ
  adjustedSeverity : Option Severity
deriving DecidableEq

/-- Truthiness of a possibly-absent boolean field. -/
def optTrue (o : Option Bool) : Bool := o.getD false

/-- Function summary of the parsed-syntax analysis: name, start line of the
definition, and end line of the body (each line may be absent when the
node carries no location). -/
structure SFun where
  name : Str
  line : Option Nat
  bodyEndLine : Option Nat
deriving DecidableEq

/-- Import summary of the parsed-syntax analysis. -/
structure SImp where
  source : Str
  line : Option Nat
deriving DecidableEq

/-- Export summary of the parsed-syntax analysis: named exports carry no
name field in the source, so the name is optional. -/
structure SExp where
  name : Option Str
  line : Option Nat
deriving DecidableEq

/-- Argument node of a call site, as consumed by
SemanticAnalyzer.extractArgTokens: a node with a name, a node with a
value, a member expression with an object and a property, or anything
else. -/
inductive ArgNode where
  | ident (s : Str)
  | litVal (s : Str)
  | member (obj prop : ArgNode)
  | other
deriving DecidableEq

/-- Token extraction from an argument node
(SemanticAnalyzer.extractArgTokens). -/
def extractArgTokens : ArgNode → List Str
  | .ident s => [s]
  | .litVal s => [s]
  | .member o p => extractArgTokens o ++ extractArgTokens p
  | .other => []

/-- Call-site summary of the parsed-syntax analysis. -/
structure SCall where
  name : Str
  line : Option Nat
  args : List ArgNode
deriving DecidableEq

/-- User-input source entry of the data-flow sketch. -/
structure UserInputSource where
  source : Str
  line : Option Nat
deriving DecidableEq

/-- External-call entry of the data-flow sketch. -/
structure ExternalCall where
  func : Str
  line : Option Nat
  argCount : Nat
deriving DecidableEq

/-- Sensitive-operation entry of the data-flow sketch. -/
structure SensitiveOp where
  func : Str
  line : Option Nat
  args : List ArgNode
deriving DecidableEq

/-- Data-flow sketch of a file (SemanticAnalyzer.analyzeDataFlow). -/
structure DataFlowInfo where
  userInputSources : List UserInputSource
  externalCalls : List ExternalCall
  sensitiveOperations : List SensitiveOp
deriving DecidableEq

/-- Parsed-syntax summary of one file, the analysis record built in
SemanticAnalyzer.analyzeFile.  The variable list of the source is omitted
because no enhancement rule reads it. -/
structure FileAnalysis where
  imports : List SImp
  exports : List SExp
  functions : List SFun
  calls : List SCall
  dataFlow : DataFlowInfo
deriving DecidableEq

/-- Test-naming alternation of SemanticAnalyzer.isInTestCode, the
case-insensitive test of test|spec|it|describe|before|after against a
function name. -/
def testNameRe (name : Str) : Bool :=
  containsAny (toLowerStr name) ["test".toList, "spec".toList, "it".toList,
    "describe".toList, "before".toList, "after".toList]

/-- Truthy-name-and-pattern filter of the test-function selection. -/
def isTestNamedFunction (fn : SFun) : Bool :=
  decide (fn.name ≠ []) && testNameRe fn.name

/-- Body-range containment of a line: false when the body end line or the
start line is absent (comparisons with undefined are false in the
source). -/
def fnRangeContains (fn : SFun) (line : Nat) : Bool :=
  match fn.bodyEndLine with
  | some fnEnd =>
    match fn.line with
    | some fnStart => decide (fnStart ≤ line) && decide (line ≤ fnEnd)
    | none => false
  | none => false

/-- Test-framework alternation of SemanticAnalyzer.isInTestCode, the
case-insensitive test of jest|mocha|chai|vitest|@testing-library against
the source of an import statement. -/
def testFrameworkRe (source : Str) : Bool :=
  containsAny (toLowerStr source) ["jest".toList, "mocha".toList, "chai".toList,
    "vitest".toList, "@testing-library".toList]

/-- Test-code containment (SemanticAnalyzer.isInTestCode): the line lies in
the body range of a function whose truthy name matches the test-naming
alternation, or the file imports a recognized test framework. -/
def isInTestCode (a : FileAnalysis) (line : Nat) : Bool :=
  let testFunctions := a.functions.filter (fun fn => isTestNamedFunction fn)
  let insideTestFn := testFunctions.any (fun fn => fnRangeContains fn line)
  if insideTestFn then true
  else (a.imports.filter (fun imp => testFrameworkRe imp.source)).length > 0

/-- User-input involvement (SemanticAnalyzer.involvesUserInput): a dotted
user-input source has a component textually contained in the names or
argument tokens of calls within 3 lines of the finding. -/
def involvesUserInput (a : FileAnalysis) (f : Finding) : Bool :=
  let userInputVars := a.dataFlow.userInputSources.map (fun s => s.source)
  if userInputVars.length = 0 then false
  else
    let nearbyCalls := a.calls.filter (fun call => lineDistLe call.line f.line 3)
    let nearbyCallNames := nearbyCalls.map (fun c => c.name)
    let nearbyCallArgs := nearbyCalls.foldl
      (fun acc c => acc ++ c.args.foldl (fun acc2 arg => acc2 ++ extractArgTokens arg) []) []
    let allNearbyTokens := nearbyCallNames ++ nearbyCallArgs
    userInputVars.any (fun input =>
      (splitOnChar '.' input).any (fun part =>
        allNearbyTokens.any (fun token => containsSub token part)))

/-- Exported-function containment (SemanticAnalyzer.isInExportedFunction):
the first function whose body range holds the line, matched against the
exports by name, by identical definition line, or by line distance at most
1. -/
def isInExportedFunction (a : FileAnalysis) (line : Nat) : Bool :=
  match a.functions.find? (fun fn =>
    match fn.bodyEndLine with
    | some fnEnd =>
      match fn.line with
      | some fnStart => decide (fnStart ≤ line) && decide (line ≤ fnEnd)
      | none => false
    | none => false) with
  | none => false
  | some fn =>
    a.exports.any (fun e =>
      (match e.name with
        | some n => n = fn.name
        | none => false) ||
      jsStrictEqOpt e.line fn.line ||
      (match e.line, fn.line with
        | some el, some fl => decide (((el : Int) - (fl : Int)).natAbs ≤ 1)
        | _, _ => false))

/-- External-data-flow flag (SemanticAnalyzer.hasExternalDataFlow): any
external call or sensitive operation anywhere in the file. -/
def hasExternalDataFlowB (a : FileAnalysis) : Bool :=
  a.dataFlow.externalCalls.length > 0 || a.dataFlow.sensitiveOperations.length > 0

/-- Semantic confidence score
(SemanticAnalyzer.calculateSemanticScore): the threat score (0.5 when
falsy), times 0.3 under test code, times 1.5 under user input, times 0.7
when not exported, times 1.3 under external data flow, capped at 2.0. -/
def calculateSemanticScore (e : Finding) : ℚ :=
  let score := if e.threatScore = 0 then 1/2 else e.threatScore
  let score := if optTrue e.isTestCode then score * (3/10) else score
  let score := if optTrue e.involvesUserInput then score * (3/2) else score
  let score := if !(optTrue e.isExported) then score * (7/10) else score
  let score := if optTrue e.hasExternalDataFlow then score * (13/10) else score
  min score 2

/-- Adjusted severity (SemanticAnalyzer.adjustSeverity): the low override
for low-scoring test code, then the 1.5 / 1.0 / 0.6 thresholds.  An absent
semantic score gives low, every severed comparison with undefined being
false in the source. -/
def adjustSeveritySem (e : Finding) : Severity :=
  match e.semanticScore with
  | none => .low
  | some score =>
    if optTrue e.isTestCode && decide (score < 4/5) then .low
    else if score ≥ 3/2 then .critical
    else if score ≥ 1 then .high
    else if score ≥ 3/5 then .medium
    else .low

/-- Enhancement of one finding
(the body of the map in SemanticAnalyzer.enhanceFindingsWithSemantics):
the four semantic flags, then the semantic score computed from the flagged
record, then the adjusted severity computed from the scored record.  The
provisional severity field is not touched. -/
def enhanceOne (a : FileAnalysis) (f : Finding) : Finding :=
  let base := { f with
    isTestCode := some (isInTestCode a f.line),
    involvesUserInput := some (involvesUserInput a f),
    isExported := some (isInExportedFunction a f.line),
    hasExternalDataFlow := some (hasExternalDataFlowB a) }
  let scored := { base with semanticScore := some (calculateSemanticScore base) }
  { scored with adjustedSeverity := some (adjustSeveritySem scored) }

/-- Wholesale enhancement of the finding set of one file
(SemanticAnalyzer.enhanceFindingsWithSemantics). -/
def enhanceFindingsWithSemantics (findings : List Finding) (a : FileAnalysis) : List Finding :=
  findings.map (enhanceOne a)

/-- Supported-extension test (SemanticAnalyzer.isSupportedFile). -/
def isSupportedFile (p : Str) : Bool :=
  [".js".toList, ".jsx".toList, ".ts".toList, ".tsx".toList, ".mjs".toList].any
    (fun e => extnameStr p = e)

/-- Per-file semantic analysis (SemanticAnalyzer.analyzeFile).  The babel
parse and the traversal-based extraction are third-party code, so their
combined result enters as the parsed argument: none models a parse failure
(parseCode returning null after both attempts) and some a models a built
analysis.  An unsupported extension or a failed parse leaves the findings
unchanged, and the try/catch of the source makes the whole computation
total. -/
def analyzeFile (filePath : Str) (parsed : Option FileAnalysis)
    (findings : List Finding) : List Finding :=
  if !(isSupportedFile filePath) then findings
  else
    match parsed with
    | none => findings
    | some a => enhanceFindingsWithSemantics findings a

/-! Cross-file analyzer (cross-file-analyzer.js).  The JavaScript Maps held
on the analyzer instance become an explicit state record; Map.set keeps the
insertion position of an existing key, Map.get returns the first entry, and
iteration follows insertion order, which the association-list helpers below
reproduce. -/

/-- Lookup in an insertion-ordered association list (Map.get). -/
def alGet {α : Type} (m : List (Str × α)) (k : Str) : Option α :=
  (m.find? (fun e => e.fst = k)).map (fun e => e.snd)

/-- Update of an insertion-ordered association list (Map.set): an existing
key keeps its position, a new key is appended. -/
def alSet {α : Type} (m : List (Str × α)) (k : Str) (v : α) : List (Str × α) :=
  if (m.find? (fun e => e.fst = k)).isSome then
    m.map (fun e => if e.fst = k then (k, v) else e)
  else m ++ [(k, v)]

/-- Push onto the list stored under a key, creating an empty entry first
when absent, the get-or-initialize-then-push idiom of the source. -/
def alPush {α : Type} (m : List (Str × List α)) (k : Str) (v : α) : List (Str × List α) :=
  if (m.find? (fun e => e.fst = k)).isSome then
    m.map (fun e => if e.fst = k then (k, e.snd ++ [v]) else e)
  else m ++ [(k, [v])]

/-- Import kinds of CrossFileAnalyzer.extractImports. -/
inductive ImpType where
  | es6
  | commonjs
  | dynamic
deriving DecidableEq

/-- One extracted import. -/
structure Imp where
  itype : ImpType
  specifiers : Str
  source : Str
  line : Nat
deriving DecidableEq

/-- Export kinds of CrossFileAnalyzer.extractExports. -/
inductive ExpType where
  | es6
  | commonjs
deriving DecidableEq

/-- One extracted export. -/
structure Exp where
  etype : ExpType
  name : Str
  line : Nat
deriving DecidableEq

/-- One dependency edge (the entries of the fileRelationships map; the type
field of the source is always the string imports). -/
structure Rel where
  target : Str
  imp : Imp
deriving DecidableEq

/-- Mutable state of a CrossFileAnalyzer instance (the sharedPatterns map
is never read or written and is omitted). -/
structure CState where
  fileRelationships : List (Str × List Rel)
  importGraph : List (Str × List Imp)
  exportGraph : List (Str × List Exp)
deriving DecidableEq

/-- Fresh analyzer state, the constructor of CrossFileAnalyzer. -/
def cstate0 : CState := ⟨[], [], []⟩

/-- One input file of the cross-file analysis. -/
structure MFile where
  path : Str
  content : Str
  size : Nat
deriving DecidableEq

/-- Literal-prefix parser: consumes lit and returns the rest. -/
def pLit (lit s : Str) : Option Str :=
  if prefixCheck lit s then some (s.drop lit.length) else none

/-- Case-insensitive literal-prefix parser (lit given lowered). -/
def pLitCi (lit s : Str) : Option Str :=
  if prefixCheck lit (toLowerStr (s.take lit.length)) then some (s.drop lit.length) else none

/-- Single-character parser. -/
def pChar (c : Char) (s : Str) : Option Str :=
  match s with
  | c2 :: rest => if c2 = c then some rest else none
  | [] => none

/-- Quote-character parser, matching the class of a single or double
quote. -/
def pQuoteChar (s : Str) : Option Str :=
  match s with
  | c :: rest => if c = '\'' || c = '"' then some rest else none
  | [] => none

/-- Optional-whitespace consumer, the semantics of backslash-s star. -/
def pWs0 (s : Str) : Str := s.dropWhile isJsWs

/-- Mandatory-whitespace parser, the semantics of backslash-s plus. -/
def pWs1 (s : Str) : Option Str :=
  match s with
  | c :: rest => if isJsWs c then some (rest.dropWhile isJsWs) else none
  | [] => none

/-- Greedy non-empty capture of characters satisfying a class, the
semantics of a one-or-more character class. -/
def pTake1While (pred : Char → Bool) (s : Str) : Option (Str × Str) :=
  let cap := s.takeWhile pred
  if cap = [] then none else some (cap, s.drop cap.length)

/-- Parser for the ES6 import expression: the word import, then ws+,
then (braces group | star-as group | identifier), then ws+ from ws+ and a
quoted source; returns the captured specifiers, source and the rest.
The three alternatives are distinguished by their first character, so the
linear attempt equals the backtracking behaviour of the alternation. -/
def pEs6Import (s : Str) : Option ((Str × Str) × Str) := do
  let s1 ← pLit "import".toList s
  let s2 ← pWs1 s1
  let specAndRest : Option (Str × Str) :=
    match s2 with
    | '{' :: s3 =>
      match pTake1While (fun c => c ≠ '}') s3 with
      | some (cap, r) =>
        match r with
        | '}' :: r2 => some (cap, r2)
        | _ => none
      | none => none
    | '*' :: s3 =>
      (do
        let s4 ← pWs1 s3
        let s5 ← pLit "as".toList s4
        let s6 ← pWs1 s5
        let (_, r) ← pTake1While isWordChar s6
        -- the capture is the whole star-as-identifier text as matched
        pure (s2.take (s2.length - r.length), r))
    | _ =>
      match pTake1While isWordChar s2 with
      | some (w, r) => some (w, r)
      | none => none
  match specAndRest with
  | none => none
  | some (spec, s3) => do
    let s4 ← pWs1 s3
    let s5 ← pLit "from".toList s4
    let s6 ← pWs1 s5
    let s7 ← pQuoteChar s6
    let (src, r) ← pTake1While (fun c => c ≠ '\'' ∧ c ≠ '"') s7
    let r2 ← pQuoteChar r
    pure ((spec, src), r2)

/-- Parser for name ws* ( ws* quoted source ws* ), the shape of the
CommonJS require and dynamic import expressions. -/
def pCallQuoted (fname : Str) (s : Str) : Option (Str × Str) := do
  let s1 ← pLit fname s
  let s2 := pWs0 s1
  let s3 ← pChar '(' s2
  let s4 := pWs0 s3
  let s5 ← pQuoteChar s4
  let (src, r) ← pTake1While (fun c => c ≠ '\'' ∧ c ≠ '"') s5
  let r2 ← pQuoteChar r
  let r3 := pWs0 r2
  let r4 ← pChar ')' r3
  pure (src, r4)

/-- Parser for the ES6 export expression
export ws+ (braces group | declaration keyword ws+ identifier): returns the
captured name and the rest. -/
def pEs6Export (s : Str) : Option (Str × Str) := do
  let s1 ← pLit "export".toList s
  let s2 ← pWs1 s1
  match s2 with
  | '{' :: s3 =>
    match pTake1While (fun c => c ≠ '}') s3 with
    | some (cap, r) =>
      match r with
      | '}' :: r2 => some (cap, r2)
      | _ => none
    | none => none
  | _ =>
    ["default".toList, "class".toList, "function".toList, "const".toList,
     "let".toList, "var".toList].findSome? (fun kw => do
      let s3 ← pLit kw s2
      let s4 ← pWs1 s3
      let (w, r) ← pTake1While isWordChar s4
      pure (w, r))

/-- Parser for the CommonJS export expression
(module.exports ws* = | exports.) capture of non-semicolon characters. -/
def pModuleExports (s : Str) : Option (Str × Str) := do
  let rest ←
    (do
      let s1 ← pLit "module.exports".toList s
      let s2 := pWs0 s1
      pChar '=' s2) <|> pLit "exports.".toList s
  let (cap, r) ← pTake1While (fun c => c ≠ ';') rest
  pure (cap, r)

/-- Global scan of a parser over content: at each position a successful
parse is recorded with its start index and scanning resumes after the
consumed text; otherwise scanning advances one character, the behaviour of
a global regular expression. -/
def scanAllGo {α : Type} (p : Str → Option (α × Str)) :
    (fuel : Nat) → (i : Nat) → (s : Str) → List (Nat × α)
  | 0, _, _ => []
  | _ + 1, _, [] => []
  | fuel + 1, i, s@(_ :: rest) =>
    match p s with
    | some (v, rest2) => (i, v) :: scanAllGo p fuel (i + (s.length - rest2.length)) rest2
    | none => scanAllGo p fuel (i + 1) rest

/-- All matches of a parser over content, with 0-based start indices. -/
def scanAll {α : Type} (p : Str → Option (α × Str)) (content : Str) : List (Nat × α) :=
  scanAllGo p content.length 0 content

/-- Import extraction (CrossFileAnalyzer.extractImports): the ES6 scan,
then the CommonJS scan, then the dynamic-import scan, each recording the
line of the match start. -/
def extractImports (content : Str) : List Imp :=
  ((scanAll pEs6Import content).map (fun e =>
    ⟨ImpType.es6, e.snd.fst, e.snd.snd, getLineNumber content (e.fst : Int)⟩)) ++
  ((scanAll (pCallQuoted "require".toList) content).map (fun e =>
    ⟨ImpType.commonjs, "*".toList, e.snd, getLineNumber content (e.fst : Int)⟩)) ++
  ((scanAll (pCallQuoted "import".toList) content).map (fun e =>
    ⟨ImpType.dynamic, "*".toList, e.snd, getLineNumber content (e.fst : Int)⟩))

/-- Export extraction (CrossFileAnalyzer.extractExports): the ES6 scan then
the CommonJS scan. -/
def extractExports (content : Str) : List Exp :=
  ((scanAll pEs6Export content).map (fun e =>
    ⟨ExpType.es6, e.snd, getLineNumber content (e.fst : Int)⟩)) ++
  ((scanAll pModuleExports content).map (fun e =>
    ⟨ExpType.commonjs, e.snd, getLineNumber content (e.fst : Int)⟩))

/-- Import-to-export resolution (CrossFileAnalyzer.exportsMatch), reading
the export graph of the current analyzer state. -/
def exportsMatch (st : CState) (imp : Imp) (filePath : Str) : Bool :=
  match alGet st.exportGraph filePath with
  | none => false
  | some exps =>
    let impSource := stripExt imp.source
    let fileName := stripExt (basenameStr filePath)
    exps.any (fun e => e.name = "*".toList || e.name = impSource || e.name = fileName)

/-- Dependency-graph construction
(CrossFileAnalyzer.buildDependencyGraph): per file, the import and export
graphs are set, then every import is resolved against every other file
using the export graph as it stands at that moment, appending an edge to
the relationship map on success.  The maps persist on the instance: nothing
is cleared between calls. -/
def buildDependencyGraph (st : CState) (files : List MFile) : CState :=
  files.foldl (fun st file =>
    let imports := extractImports file.content
    let exps := extractExports file.content
    let st := { st with
      importGraph := alSet st.importGraph file.path imports,
      exportGraph := alSet st.exportGraph file.path exps }
    imports.foldl (fun st imp =>
      files.foldl (fun st other =>
        if other.path ≠ file.path && exportsMatch st imp other.path then
          { st with fileRelationships := alPush st.fileRelationships file.path ⟨other.path, imp⟩ }
        else st) st) st) st

/-- Grouping of findings by file (CrossFileAnalyzer.groupFindingsByFile). -/
def groupFindingsByFile (findings : List Finding) : List (Str × List Finding) :=
  findings.foldl (fun g f => alPush g f.file f) []

/-- One suspicious-import record. -/
structure SuspImport where
  file : Str
  imp : Imp
  reason : Str
  severity : Severity
deriving DecidableEq

/-- Suspicious-import test: the disjunction of the four pattern tests of
CrossFileAnalyzer.analyzeSuspiciousImports. -/
def isSuspiciousImport (imp : Imp) : Bool :=
  (decide (imp.itype = ImpType.dynamic) &&
    containsAny (toLowerStr imp.source)
      ["user".toList, "input".toList, "data".toList, "req".toList]) ||
  containsAny (toLowerStr imp.source)
    ["http".toList, "https".toList, "ftp".toList, "data:text".toList] ||
  containsAny (toLowerStr imp.source)
    ["/tmp/".toList, "/temp/".toList, "/var/tmp/".toList] ||
  hasHexRun20 imp.source || hasUnicodeEsc imp.source

/-- Reason string of a suspicious import
(CrossFileAnalyzer.getImportSuspicionReason). -/
def getImportSuspicionReason (imp : Imp) : Str :=
  if decide (imp.itype = ImpType.dynamic) &&
      containsAny (toLowerStr imp.source) ["user".toList, "input".toList, "data".toList] then
    "Dynamic import with user input".toList
  else if containsAny (toLowerStr imp.source) ["http".toList, "https".toList, "ftp".toList] then
    "Import from remote URL".toList
  else if containsAny (toLowerStr imp.source)
      ["/tmp/".toList, "/temp/".toList, "/var/tmp/".toList] then
    "Import from temporary directory".toList
  else if hasHexRun20 imp.source || hasUnicodeEsc imp.source then
    "Obfuscated import source".toList
  else "Unknown suspicious pattern".toList

/-- Suspicious-import detector (CrossFileAnalyzer.analyzeSuspiciousImports),
reading the import graph of the state. -/
def analyzeSuspiciousImports (st : CState) (files : List MFile) : List SuspImport :=
  files.foldl (fun acc file =>
    ((alGet st.importGraph file.path).getD []).foldl (fun acc imp =>
      if isSuspiciousImport imp then
        acc ++ [⟨file.path, imp, getImportSuspicionReason imp, .high⟩]
      else acc) acc) []

/-- File-and-line reference inside an attack chain. -/
structure FileLine where
  path : Str
  line : Nat
deriving DecidableEq

/-- One attack chain of CrossFileAnalyzer.findAttackChains. -/
structure AttackChain where
  ctype : Str
  files : List FileLine
  severity : Severity
deriving DecidableEq

/-- Relatedness test of a file group (CrossFileAnalyzer.areFilesRelated):
a cyclic-successor dependency edge, a single shared directory, or few
distinct basename stems.  The float comparison
uniquePatterns.length < baseNames.length / 2 is written
2 * uniquePatterns.length < baseNames.length, its exact integer form. -/
def areFilesRelated (st : CState) (filePaths : List Str) : Bool :=
  if filePaths.length < 2 then false
  else
    let loopHit := (List.range filePaths.length).any (fun i =>
      let f1 := filePaths.getD i []
      let f2 := filePaths.getD ((i + 1) % filePaths.length) []
      match alGet st.fileRelationships f1 with
      | some rels => rels.any (fun r => r.target = f2)
      | none => false)
    if loopHit then true
    else
      let dirs := filePaths.map dirnameStr
      let uniqueDirs := dedupKeepFirst dirs
      if uniqueDirs.length = 1 && decide (uniqueDirs.length < filePaths.length) then true
      else
        let baseNames := filePaths.map basenameStr
        let namePatterns := baseNames.map stripTrailingDigitsUnderscore
        let uniquePatterns := dedupKeepFirst namePatterns
        decide (uniquePatterns.length < baseNames.length) &&
          decide (2 * uniquePatterns.length < baseNames.length)

/-- Attack-chain detector (CrossFileAnalyzer.findAttackChains): findings
grouped by category in encounter order; a category present in at least two
entries whose files are related yields a critical chain. -/
def findAttackChains (st : CState) (byFile : List (Str × List Finding)) : List AttackChain :=
  let attacksByType : List (Str × List (Str × Finding)) :=
    byFile.foldl (fun m e =>
      e.snd.foldl (fun m f => alPush m f.category (e.fst, f)) m) []
  attacksByType.foldl (fun chains e =>
    if decide (e.snd.length ≥ 2) && areFilesRelated st (e.snd.map (fun a => a.fst)) then
      chains ++ [⟨e.fst, e.snd.map (fun a => ⟨a.fst, a.snd.line⟩), .critical⟩]
    else chains) []

/-- File-and-count reference inside an exfiltration chain. -/
structure FileCount where
  path : Str
  count : Nat
deriving DecidableEq

/-- One exfiltration chain of CrossFileAnalyzer.findExfiltrationChains. -/
structure ExfilChain where
  ctype : Str
  files : List FileCount
  destinations : List Str
  severity : Severity
deriving DecidableEq

/-- First host captured by the pattern http, optional s, colon-slash-slash,
then one or more non-slash non-whitespace characters, case-insensitive on
the scheme (CrossFileAnalyzer.extractDestination). -/
def tryHttpHost (s : Str) : Option Str := do
  let s1 ← pLitCi "http".toList s
  let afterScheme ←
    match s1 with
    | c :: s2 =>
      if c.toLower = 's' then
        match pLit "://".toList s2 with
        | some r => some r
        | none => pLit "://".toList s1
      else pLit "://".toList s1
    | [] => none
  let (host, _) ← pTake1While (fun c => c ≠ '/' ∧ !(isJsWs c)) afterScheme
  pure host

/-- Scan for the first URL host of an evidence string. -/
def extractDestinationGo : (fuel : Nat) → (s : Str) → Option Str
  | 0, _ => none
  | _ + 1, [] => none
  | fuel + 1, s@(_ :: rest) =>
    match tryHttpHost s with
    | some h => some h
    | none => extractDestinationGo fuel rest

/-- Destination host of an evidence string, or none. -/
def extractDestination (evidence : Str) : Option Str :=
  extractDestinationGo evidence.length evidence

/-- Exfiltration-chain detector (CrossFileAnalyzer.findExfiltrationChains):
exfiltration-flavoured findings per file, distinct destination hosts
collected in encounter order, and a critical chain when at least two
destinations appear. -/
def findExfiltrationChains (byFile : List (Str × List Finding)) : List ExfilChain :=
  let exfil := byFile.foldl (fun acc e =>
    let ex := e.snd.filter (fun f =>
      containsSub f.category "Exfiltration".toList ||
      containsSub f.category "Credential".toList ||
      containsSub f.evidence "fetch".toList ||
      containsSub f.evidence "process.env".toList)
    if ex.length > 0 then acc ++ [(e.fst, ex)] else acc) []
  let destinations := exfil.foldl (fun ds e =>
    e.snd.foldl (fun ds f =>
      match extractDestination f.evidence with
      | some d => if ds.any (fun x => x = d) then ds else ds ++ [d]
      | none => ds) ds) []
  if destinations.length ≥ 2 then
    [⟨"multi_destination_exfiltration".toList,
      exfil.map (fun e => ⟨e.fst, e.snd.length⟩), destinations, .critical⟩]
  else []

/-- Coordinated-attack records of
CrossFileAnalyzer.detectCoordinatedAttacks: an attack-chain item or a
distributed-exfiltration item, both carrying their chain lists. -/
inductive CoordChains where
  | attack (chains : List AttackChain)
  | exfil (chains : List ExfilChain)
deriving DecidableEq

/-- One coordinated-attack record. -/
structure Coordinated where
  ctype : Str
  severity : Severity
  description : Str
  chains : CoordChains
deriving DecidableEq

/-- Whether a coordinated record implicates a file: some chain lists the
file among its file references. -/
def coordImplicates (co : Coordinated) (file : Str) : Bool :=
  match co.chains with
  | .attack l => l.any (fun ch => ch.files.any (fun f => f.path = file))
  | .exfil l => l.any (fun ch => ch.files.any (fun f => f.path = file))

/-- Coordinated-attack detector
(CrossFileAnalyzer.detectCoordinatedAttacks). -/
def detectCoordinatedAttacks (st : CState) (byFile : List (Str × List Finding)) :
    List Coordinated :=
  let ac := findAttackChains st byFile
  let l1 : List Coordinated :=
    if ac.length > 0 then
      [⟨"attack_chain".toList, .critical,
        "Multiple files implementing coordinated attack".toList, .attack ac⟩]
    else []
  let ec := findExfiltrationChains byFile
  l1 ++ (if ec.length > 0 then
    [⟨"distributed_exfiltration".toList, .critical,
      "Data exfiltration distributed across multiple files".toList, .exfil ec⟩]
  else [])

/-- One step of a data-flow path (CrossFileAnalyzer.buildDataFlowPath): the
input and output steps carry the path string of the start file, while the
processing step carries the whole file object, which the correlation
attachment later compares with === against a path string (always false). -/
inductive DFStep where
  | input (file : Str) (findings : List Finding)
  | processing (file : MFile) (imp : Imp)
  | output (file : Str) (findings : List Finding)
deriving DecidableEq

/-- Whether a step matches a file path under the === comparison of the
source: a processing step holds an object and never equals a string. -/
def dfStepFileMatches (s : DFStep) (file : Str) : Bool :=
  match s with
  | .input f _ => f = file
  | .output f _ => f = file
  | .processing _ _ => false

/-- One data-flow chain. -/
structure DFChain where
  ctype : Str
  path : List DFStep
  severity : Severity
deriving DecidableEq

/-- File resolution of an import source
(CrossFileAnalyzer.findFileByImport). -/
def findFileByImport (source : Str) (files : List MFile) : Option MFile :=
  let clean := stripExt source
  files.find? (fun f =>
    stripExt (basenameStr f.path) = clean || basenameStr f.path = source)

/-- Data-flow path construction (CrossFileAnalyzer.buildDataFlowPath):
the input step, a processing step per resolvable import of the start file,
and an output step when external-call findings exist. -/
def buildDataFlowPath (st : CState) (startFile : Str) (ui ec : List Finding)
    (files : List MFile) : Option (List DFStep) :=
  let p0 : List DFStep := [.input startFile ui]
  let p1 := ((alGet st.importGraph startFile).getD []).foldl (fun p imp =>
    match findFileByImport imp.source files with
    | some tf => p ++ [.processing tf imp]
    | none => p) p0
  let p2 := if ec.length > 0 then p1 ++ [.output startFile ec] else p1
  if p2.length ≥ 2 then some p2 else none

/-- Data-flow tracing (CrossFileAnalyzer.traceDataFlow). -/
def traceDataFlow (st : CState) (byFile : List (Str × List Finding))
    (files : List MFile) : List (List DFStep) :=
  byFile.foldl (fun paths e =>
    let ui := e.snd.filter (fun f =>
      containsSub f.evidence "req.".toList ||
      containsSub f.evidence "request.".toList ||
      containsSub f.evidence "user".toList ||
      containsSub f.evidence "input".toList)
    let ec := e.snd.filter (fun f =>
      containsSub f.evidence "fetch".toList ||
      containsSub f.evidence "http".toList ||
      containsSub f.evidence "axios".toList ||
      containsSub f.evidence "webhook".toList)
    if ui.length > 0 && ec.length > 0 then
      match buildDataFlowPath st e.fst ui ec files with
      | some p => paths ++ [p]
      | none => paths
    else paths) []

/-- Data-flow chain detector (CrossFileAnalyzer.analyzeDataFlowChains):
paths of length at least 3 become high-severity chains. -/
def analyzeDataFlowChains (st : CState) (byFile : List (Str × List Finding))
    (files : List MFile) : List DFChain :=
  (traceDataFlow st byFile files).foldl (fun ch p =>
    if p.length ≥ 3 then ch ++ [⟨"data_flow_chain".toList, p, .high⟩] else ch) []

/-- Technique label of a persistence finding
(CrossFileAnalyzer.extractPersistenceTechnique). -/
def extractPersistenceTechnique (ev : Str) : Str :=
  if containsSub ev "startup".toList || containsSub ev "boot".toList then
    "startup_persistence".toList
  else if containsSub ev "install".toList || containsSub ev "deploy".toList then
    "installation_persistence".toList
  else if containsSub ev "registry".toList || containsSub ev "cron".toList then
    "system_persistence".toList
  else if containsSub ev "service".toList || containsSub ev "daemon".toList then
    "service_persistence".toList
  else "unknown_persistence".toList

/-- Per-file technique list of a persistence chain. -/
structure FileTechniques where
  file : Str
  techniques : List Str
deriving DecidableEq

/-- One persistence chain. -/
structure PersistChain where
  ctype : Str
  strategies : List FileTechniques
  severity : Severity
deriving DecidableEq

/-- Persistence-chain detector
(CrossFileAnalyzer.detectPersistenceChains). -/
def detectPersistenceChains (byFile : List (Str × List Finding))
    (_files : List MFile) : List PersistChain :=
  let pf := byFile.foldl (fun acc e =>
    let p := e.snd.filter (fun f =>
      containsSub f.category "Persistence".toList ||
      containsSub f.category "Backdoor".toList ||
      containsSub f.evidence "startup".toList ||
      containsSub f.evidence "boot".toList ||
      containsSub f.evidence "install".toList)
    if p.length > 0 then acc ++ [(e.fst, p)] else acc) []
  if pf.length ≥ 2 then
    [⟨"multi_file_persistence".toList,
      pf.map (fun e => ⟨e.fst, e.snd.map (fun f => extractPersistenceTechnique f.evidence)⟩),
      .critical⟩]
  else []

/-- Configuration-file classification (CrossFileAnalyzer.isConfigFile). -/
def isConfigFile (fp : Str) : Bool :=
  let l := toLowerStr fp
  containsSub l "config.".toList || containsSub l ".env".toList ||
  containsSub l "settings.".toList || containsSub l ".config.".toList ||
  containsSub l "/etc/".toList ||
  endsWithStr l ".json".toList || endsWithStr l ".yml".toList ||
  endsWithStr l ".yaml".toList || endsWithStr l ".ini".toList ||
  endsWithStr l ".conf".toList

/-- Config-injection records of
CrossFileAnalyzer.detectConfigCodeInjection: a config file carrying
findings, or a manipulation record produced by
detectConfigManipulation. -/
inductive CfgInj where
  | configFileInj (configFile : Str) (findings : List Finding) (severity : Severity)
  | manipulation (sourceFile : Str) (targetConfig : Option Str) (finding : Finding)
      (severity : Severity)
deriving DecidableEq

/-- The sourceFile property of a config-injection record (absent on the
config-file shape). -/
def cfgSourceFile : CfgInj → Option Str
  | .configFileInj _ _ _ => none
  | .manipulation sf _ _ _ => some sf

/-- The configFile property of a config-injection record (absent on the
manipulation shape). -/
def cfgConfigFile : CfgInj → Option Str
  | .configFileInj cf _ _ => some cf
  | .manipulation _ _ _ _ => none

/-- The severity of a config-injection record. -/
def cfgInjSeverity : CfgInj → Severity
  | .configFileInj _ _ sev => sev
  | .manipulation _ _ _ sev => sev

/-- Strict equality of possibly-absent strings, the semantics of === where
either side may be undefined. -/
def jsStrictEqOptStr : Option Str → Option Str → Bool
  | some a, some b => a = b
  | none, none => true
  | _, _ => false

/-- Capture of the first quoted config-path-like string: an opening quote,
non-quote characters ending in a dot followed by a config suffix, and a
closing quote, case-insensitive on the suffix
(CrossFileAnalyzer.extractConfigTarget).  The greedy star of the source
cannot cross a quote, so the capture runs to the first quote after the
opener and the suffix test applies to its tail. -/
def extractConfigTargetGo : (fuel : Nat) → (s : Str) → Option Str
  | 0, _ => none
  | _ + 1, [] => none
  | fuel + 1, c :: rest =>
    if c = '\'' || c = '"' then
      let cap := rest.takeWhile (fun x => x ≠ '\'' ∧ x ≠ '"')
      match rest.drop cap.length with
      | q :: _ =>
        if (q = '\'' || q = '"') &&
            (["env".toList, "config".toList, "settings".toList, "json".toList,
              "yml".toList, "yaml".toList, "ini".toList, "conf".toList].any
              (fun suf => endsWithStr (toLowerStr cap) ('.' :: suf))) then
          some cap
        else extractConfigTargetGo fuel rest
      | [] => extractConfigTargetGo fuel rest
    else extractConfigTargetGo fuel rest

/-- First config-path-like capture of an evidence string. -/
def extractConfigTarget (ev : Str) : Option Str :=
  extractConfigTargetGo ev.length ev

/-- Config-manipulation detector
(CrossFileAnalyzer.detectConfigManipulation): the first finding of a
non-config file whose evidence references config paths, returned as a
critical manipulation record. -/
def detectConfigManipulation (byFile : List (Str × List Finding)) : Option CfgInj :=
  byFile.findSome? (fun e =>
    if !(isConfigFile e.fst) then
      (e.snd.find? (fun f =>
        containsSub f.evidence "config".toList ||
        containsSub f.evidence ".env".toList ||
        containsSub f.evidence "settings".toList)).map
        (fun f => CfgInj.manipulation e.fst (extractConfigTarget f.evidence) f .critical)
    else none)

/-- Config-injection detector
(CrossFileAnalyzer.detectConfigCodeInjection). -/
def detectConfigCodeInjection (byFile : List (Str × List Finding))
    (_files : List MFile) : List CfgInj :=
  let inj := byFile.foldl (fun acc e =>
    if isConfigFile e.fst && decide (e.snd.length > 0) then
      acc ++ [CfgInj.configFileInj e.fst e.snd .high]
    else acc) []
  match detectConfigManipulation byFile with
  | some m => inj ++ [m]
  | none => inj

/-- One correlation record attached to a finding. -/
inductive CorrDetails where
  | suspImport (i : SuspImport)
  | coordinated (c : Coordinated)
  | dataFlow (c : DFChain)
  | persistence (p : PersistChain)
  | configInj (c : CfgInj)
deriving DecidableEq

/-- A correlation entry of the correlations array of a finding. -/
structure Corr where
  ctype : Str
  details : CorrDetails
  severity : Severity
deriving DecidableEq

/-- A finding carrying its correlations array. -/
structure CFinding where
  base : Finding
  correlations : List Corr
deriving DecidableEq

/-- The five detector outputs of one analyzeFiles run. -/
structure Correlations where
  suspiciousImports : List SuspImport
  coordinatedAttacks : List Coordinated
  dataFlowChains : List DFChain
  persistenceChains : List PersistChain
  configCodeInjection : List CfgInj
deriving DecidableEq

/-- Attachment of correlation records to every finding
(CrossFileAnalyzer.enhanceFindingsWithCorrelations), in the source order:
suspicious imports, coordinated attacks, data-flow chains, persistence
chains, config injections. -/
def enhanceFindingsWithCorrelations (findings : List Finding) (c : Correlations) :
    List CFinding :=
  findings.map (fun f =>
    let c1 := c.suspiciousImports.foldl (fun acc imp =>
      if imp.file = f.file then
        acc ++ [⟨"suspicious_import".toList, .suspImport imp, imp.severity⟩]
      else acc) ([] : List Corr)
    let c2 := c.coordinatedAttacks.foldl (fun acc ca =>
      if coordImplicates ca f.file then
        acc ++ [⟨"coordinated_attack".toList, .coordinated ca, ca.severity⟩]
      else acc) c1
    let c3 := c.dataFlowChains.foldl (fun acc ch =>
      if ch.path.any (fun s => dfStepFileMatches s f.file) then
        acc ++ [⟨"data_flow_chain".toList, .dataFlow ch, ch.severity⟩]
      else acc) c2
    let c4 := c.persistenceChains.foldl (fun acc p =>
      if p.strategies.any (fun s => s.file = f.file) then
        acc ++ [⟨"persistence_chain".toList, .persistence p, p.severity⟩]
      else acc) c3
    let c5 := c.configCodeInjection.foldl (fun acc inj =>
      if jsStrictEqOptStr (cfgSourceFile inj) (some f.file) ||
          jsStrictEqOptStr (cfgConfigFile inj) (some f.file) then
        acc ++ [⟨"config_code_injection".toList, .configInj inj, cfgInjSeverity inj⟩]
      else acc) c4
    ⟨f, c5⟩)

/-- The whole cross-file analysis (CrossFileAnalyzer.analyzeFiles): the
dependency graph is (re)built on the instance state, findings are grouped
by file, the five detectors run, and the findings are returned with their
correlations.  The updated instance state is returned alongside, because
the maps persist between calls. -/
def analyzeFiles (st : CState) (files : List MFile) (findings : List Finding) :
    List CFinding × CState :=
  let st1 := buildDependencyGraph st files
  let byFile := groupFindingsByFile findings
  let correlations : Correlations :=
    ⟨analyzeSuspiciousImports st1 files,
     detectCoordinatedAttacks st1 byFile,
     analyzeDataFlowChains st1 byFile files,
     detectPersistenceChains byFile files,
     detectConfigCodeInjection byFile files⟩
  (enhanceFindingsWithCorrelations findings correlations, st1)

/-! Scanner pipeline (scanner.js).  The pattern catalog is external
configuration: each compiled matcher enters as a function from content to
the list of matched substrings, the result of content.match with the
null result as the empty list, together with its source text. -/

/-- One compiled matcher of the catalog: its printed source (used for the
pattern field of a finding) and its match function. -/
structure ScanPattern where
  src : Str
  matchFn : Str → List Str

/-- One pattern category of the catalog. -/
structure ScanCategory where
  name : Str
  severity : Severity
  patterns : List ScanPattern

/-- A matcher behaving as an escaped-literal regular expression with the
global flag: it reports every non-overlapping occurrence of the literal. -/
def literalPattern (pat : String) : ScanPattern :=
  ⟨pat.toList, fun content => literalMatches pat.toList content⟩

/-- The finding record emitted for one matched substring in
Scanner.scanFile, with the index re-located by content.indexOf(match) -
the first occurrence of the text, not the match position - and the scores
of the analyzer. -/
def mkPatternFinding (cfg : ScanConfig) (cat : ScanCategory) (pat : ScanPattern)
    (filePath content m : Str) : Finding :=
  let index := jsIndexOf content m
  let ctx := analyzeContext cfg filePath content
  let ts := calculateThreatScore cfg (categoryKey cat.name) (1/2) ctx
  ⟨adjustSeverity cat.severity ts, cat.name,
    pat.src.take 50 ++ "...".toList, filePath,
    getLineNumber content index, m.take 100, m, ts, ctx,
    none, none, none, none, none, none⟩

/-- Per-match scanning of one file, the pattern loop of Scanner.scanFile:
for every category, for every matcher, every matched substring whose
first-occurrence index is not in a safe context and whose file is not
classified test/example is emitted, in loop order. -/
def patternFindings (cfg : ScanConfig) (cats : List ScanCategory)
    (filePath content : Str) : List Finding :=
  cats.flatMap (fun cat =>
    cat.patterns.flatMap (fun pat =>
      ((pat.matchFn content).filter (fun m =>
        !(isInSafeContext content (jsIndexOf content m)) &&
        !(isTestOrExample filePath content))).map
        (fun m => mkPatternFinding cfg cat pat filePath content m)))

/-- Synthetic finding of a whole-file multi-threat record, emitted at line
1 with context score 1.0. -/
def multiThreatToFinding (filePath : Str) (t : MultiThreat) : Finding :=
  ⟨t.severity, "Multi-Threat Pattern".toList, t.mtype, filePath, 1,
    t.evidence, t.evidence, t.score, 1, none, none, none, none, none, none⟩

/-- Scanning of one file (Scanner.scanFile) against the running findings
list: the size ceiling (the byte size taken as the content length), the
documentation skip, the pattern loop, the multi-threat findings, then -
when semantic analysis is enabled - the wholesale replacement of the
findings of this file by their enhanced versions.  The parseOf argument
stands for the third-party parse and extraction producing the analysis
summary of a file, none being a parse failure. -/
def scanFileRun (cfg : ScanConfig) (cats : List ScanCategory)
    (parseOf : Str → Str → Option FileAnalysis)
    (findings : List Finding) (filePath content : Str) : List Finding :=
  if content.length > 1024 * 1024 then findings
  else if isMostlyDocumentation content then findings
  else
    let fs1 := findings ++ patternFindings cfg cats filePath content ++
      (detectMultiThreatPatterns content).map (multiThreatToFinding filePath)
    if cfg.enableSemanticAnalysis then
      let fileFindings := fs1.filter (fun f => f.file = filePath)
      let enhanced := analyzeFile filePath (parseOf filePath content) fileFindings
      fs1.filter (fun f => f.file ≠ filePath) ++ enhanced
    else fs1

/-- Result of a directory scan: the final findings (with the correlations
property when the cross-file branch ran) and the findings snapshot that was
passed to the cross-file analyzer. -/
structure ScanDirResult where
  finalFindings : List CFinding
  correlatorInput : List Finding

/-- Directory scanning (Scanner.scanDirectory): the cross-file analysis is
performed FIRST, over the findings held by the scanner at that moment, and
only then is each file scanned.  The value the source misnames
crossFileCorrelations is the array analyzeFiles returns; the final branch
applies Scanner.enhanceWithCrossFileCorrelations only when that array is
non-empty, and reading the suspiciousImports and coordinatedAttacks
properties of an array yields undefined, so that branch only attaches an
empty correlations array to each finding.  The untaken branch leaves the
findings without a correlations property (modelled as the empty array on
the wrapper). -/
def scanDirectory (cfg : ScanConfig) (cats : List ScanCategory)
    (parseOf : Str → Str → Option FileAnalysis)
    (files : List MFile) (initialFindings : List Finding) : ScanDirResult :=
  let correlatorInput := initialFindings
  let crossRes :=
    if cfg.enableCrossFileAnalysis then (analyzeFiles cstate0 files correlatorInput).1
    else []
  let detected := files.foldl
    (fun st f => scanFileRun cfg cats parseOf st f.path f.content) initialFindings
  let finalFindings :=
    if cfg.enableCrossFileAnalysis && decide (crossRes.length > 0) then
      detected.map (fun f => ⟨f, []⟩)
    else detected.map (fun f => ⟨f, []⟩)
  ⟨finalFindings, correlatorInput⟩

/-- Per-severity points of the risk sum. -/
def severityPoints : Severity → Nat
  | .critical => 100
  | .high => 50
  | .medium => 20
  | .low => 0

/-- Risk score of a findings list (Scanner.calculateRiskScore): the
accumulated per-severity points, capped at 100. -/
def calculateRiskScore (findings : List Finding) : Nat :=
  min (findings.foldl (fun score f =>
    if f.severity = .critical then score + 100
    else if f.severity = .high then score + 50
    else if f.severity = .medium then score + 20
    else score) 0) 100

/-- Verdict string of the report (Scanner.outputJson). -/
def verdict (riskScore : Nat) : Str :=
  if riskScore > 80 then "DO NOT INSTALL".toList
  else if riskScore > 40 then "REVIEW".toList
  else "SAFE".toList

/-- Process exit status of a scan (the tail of Scanner.scan): 2 on any
critical finding, else 1 on any high finding, else 0. -/
def exitStatus (findings : List Finding) : Nat :=
  let critical := (findings.filter (fun f => f.severity = .critical)).length
  let high := (findings.filter (fun f => f.severity = .high)).length
  if critical > 0 then 2 else if high > 0 then 1 else 0

/-! Concrete instances used by the claim theorems: a configuration with
empty side tables, a catalog with two literal matchers, and small files. -/

/-- Modifier table with every entry absent, so every contextual branch of
analyzeContext falls back to its default and no branch fires on the sample
paths. -/
def plainModifiers : ContextModifiers := ⟨none, none, none, none, none⟩

/-- Scan configuration with empty catalog side tables and both analysis
stages enabled (the defaults of the Scanner options). -/
def plainConfig : ScanConfig := ⟨plainModifiers, [], [], true, true⟩

/-- A catalog with one category holding two literal matchers. -/
def evilCatalog : List ScanCategory :=
  [⟨"Evil".toList, .high, [literalPattern "eval(", literalPattern "spawn("]⟩]

/-- Parse outcome for files the babel parser rejects: every file fails to
parse, so enhancement passes findings through. -/
def parseFailure : Str → Str → Option FileAnalysis := fun _ _ => none

/-- A directory with a single scannable file containing one match. -/
def c1Files : List MFile := [⟨"x/a.js".toList, "a = eval(1)".toList, 11⟩]

/-- Content in which the same matched text occurs on line 1 and on line
3. -/
def c2Content : Str := "a = eval(1)\nb = 2\nc = eval(2)".toList

/-- File A of the idempotence scenario: imports b. -/
def c3FileA : MFile := ⟨"x/a.js".toList, "require('b')".toList, 12⟩

/-- File B of the idempotence scenario: exports b. -/
def c3FileB : MFile := ⟨"y/b.js".toList, "module.exports =b;".toList, 18⟩

/-- The two files of the idempotence scenario, in scan order. -/
def c3Files : List MFile := [c3FileA, c3FileB]

/-- A bare finding of the category Evil with empty evidence, as the
Detector would emit before any enhancement. -/
def evilFinding (file : Str) (line : Nat) : Finding :=
  ⟨.high, "Evil".toList, "p".toList, file, line, [], [], 1, 1,
    none, none, none, none, none, none⟩

/-- The finding set of the idempotence scenario: the same category in both
files. -/
def c3Findings : List Finding :=
  [evilFinding ("x/a.js".toList) 1, evilFinding ("y/b.js".toList) 2]

/-- Content whose only match of the second matcher lies in a trailing
line comment. -/
def c4Content : Str := "x(); // eval(1)".toList

/-- Content with an ordinary match on line 1 and a commented-out match on
line 2. -/
def c4bContent : Str := "a = eval(1)\n// spawn(x)".toList

/-- A finding with a given severity and inert remaining fields. -/
def findingWithSeverity (sev : Severity) : Finding :=
  ⟨sev, "Cat".toList, "p".toList, "f.js".toList, 1, [], [], 1, 1,
    none, none, none, none, none, none⟩

/-- The empty parsed-syntax summary. -/
def emptyAnalysis : FileAnalysis := ⟨[], [], [], [], ⟨[], [], []⟩⟩

/-! Helper lemmas shared by the claim theorems. -/

/-- A list is a prefix of itself extended by anything. -/
theorem prefixCheck_self_append (d suf : Str) : prefixCheck d (d ++ suf) = true := by
  induction d with
  | nil => rfl
  | cons c t ih => simp [prefixCheck, ih]

/-- A substring surrounded by arbitrary text is found by containsSub. -/
theorem containsSub_append_self (pre d suf : Str) :
    containsSub (pre ++ (d ++ suf)) d = true := by
  induction pre with
  | nil =>
    simp only [List.nil_append]
    cases d with
    | nil =>
      cases suf with
      | nil => rfl
      | cons c r => simp [containsSub, prefixCheck]
    | cons c t =>
      show containsSub (c :: (t ++ suf)) (c :: t) = true
      simp only [containsSub, Bool.or_eq_true]
      exact Or.inl (prefixCheck_self_append (c :: t) suf)
  | cons c pre ih => simp [containsSub, ih]

/-- The risk fold equals the accumulator plus the per-severity point
sum. -/
theorem riskFoldl_eq (fs : List Finding) (n : Nat) :
    fs.foldl (fun score f =>
      if f.severity = .critical then score + 100
      else if f.severity = .high then score + 50
      else if f.severity = .medium then score + 20
      else score) n = n + (fs.map (fun f => severityPoints f.severity)).sum := by
  induction fs generalizing n with
  | nil => simp
  | cons f t ih =>
    simp only [List.foldl_cons, List.map_cons, List.sum_cons, ih]
    cases h : f.severity <;> simp [severityPoints, h] <;> omega

/-- The risk score is the capped per-severity point sum. -/
theorem calculateRiskScore_eq (fs : List Finding) :
    calculateRiskScore fs = min 100 ((fs.map (fun f => severityPoints f.severity)).sum) := by
  unfold calculateRiskScore
  rw [riskFoldl_eq]
  simp [Nat.min_comm]

/-- The falsy-aware default never yields zero when the default is
non-zero. -/
theorem jsOrQ_ne_zero (v : Option ℚ) (d : ℚ) (hd : d ≠ 0) : jsOrQ v d ≠ 0 := by
  cases v with
  | none => exact hd
  | some x =>
    by_cases hx : x = 0
    · simp only [jsOrQ, if_pos hx]
      exact hd
    · simp only [jsOrQ, if_neg hx]
      exact hx

/-- The context score is never zero: it is a product of non-zero
factors (every modifier falls back to a non-zero default when falsy). -/
theorem analyzeContext_ne_zero (cfg : ScanConfig) (filePath content : Str) :
    analyzeContext cfg filePath content ≠ 0 := by
  have step : ∀ (cond : Prop) (inst : Decidable cond) (c w : ℚ), c ≠ 0 → w ≠ 0 →
      (if cond then c * w else c) ≠ 0 := by
    intro cond inst c w hc hw
    split_ifs
    · exact mul_ne_zero hc hw
    · exact hc
  unfold analyzeContext
  refine step _ _ _ _ ?_ (by norm_num)
  refine step _ _ _ _ ?_ (jsOrQ_ne_zero _ _ (by norm_num))
  refine step _ _ _ _ ?_ (jsOrQ_ne_zero _ _ (by norm_num))
  refine step _ _ _ _ ?_ (jsOrQ_ne_zero _ _ (by norm_num))
  refine step _ _ _ _ ?_ (jsOrQ_ne_zero _ _ (by norm_num))
  refine step _ _ _ _ ?_ (jsOrQ_ne_zero _ _ (by norm_num))
  norm_num

/-- The threat score of a pattern match is never zero: the base weight is
0.5, the category weight is only applied when truthy, the context score is
non-zero, and the cap keeps a non-zero value.  Hence the || 0.5 fallback of
calculateSemanticScore never fires on detector findings and the hypothesis
of the C7 theorem holds throughout the pipeline. -/
theorem calculateThreatScore_ne_zero (cfg : ScanConfig) (cat : Str) (ctx : ℚ)
    (hctx : ctx ≠ 0) : calculateThreatScore cfg cat (1/2) ctx ≠ 0 := by
  unfold calculateThreatScore
  have h0 : ((1 : ℚ)/2) ≠ 0 := by norm_num
  rw [if_neg h0]
  have hbase : (match weightLookup cfg.agenticThreatWeights cat with
      | some w => if w = 0 then (1 : ℚ)/2 else (1 : ℚ)/2 * w
      | none => (1 : ℚ)/2) ≠ 0 := by
    cases weightLookup cfg.agenticThreatWeights cat with
    | none => exact h0
    | some w =>
      by_cases hw : w = 0
      · simp [hw]
      · simp [hw]
  have hmul : (match weightLookup cfg.agenticThreatWeights cat with
      | some w => if w = 0 then (1 : ℚ)/2 else (1 : ℚ)/2 * w
      | none => (1 : ℚ)/2) * ctx ≠ 0 := mul_ne_zero hbase hctx
  rcases min_choice ((match weightLookup cfg.agenticThreatWeights cat with
      | some w => if w = 0 then (1 : ℚ)/2 else (1 : ℚ)/2 * w
      | none => (1 : ℚ)/2) * ctx) 2 with h | h <;> rw [h]
  · exact hmul
  · norm_num

/-- Every finding the pattern loop emits carries the threat score of
calculateThreatScore over a non-zero context score, so its threat score is
non-zero. -/
theorem patternFindings_threatScore_ne_zero (cfg : ScanConfig)
    (cats : List ScanCategory) (filePath content : Str) :
    ∀ f ∈ patternFindings cfg cats filePath content, f.threatScore ≠ 0 := by
  intro f hf
  simp only [patternFindings, List.mem_flatMap, List.mem_map, List.mem_filter] at hf
  obtain ⟨cat, -, pat, -, m, -, rfl⟩ := hf
  exact calculateThreatScore_ne_zero cfg (categoryKey cat.name)
    (analyzeContext cfg filePath content)
    (analyzeContext_ne_zero cfg filePath content)

/-- Verdict bands as a function of the risk score. -/
theorem verdictBands (n : Nat) :
    (verdict n = "SAFE".toList ↔ n ≤ 40) ∧
    (verdict n = "REVIEW".toList ↔ 40 < n ∧ n ≤ 80) ∧
    (verdict n = "DO NOT INSTALL".toList ↔ 80 < n) := by
  unfold verdict
  split_ifs with h80 h40
  · exact ⟨⟨fun h => absurd h (by decide), fun h => absurd h80 (by omega)⟩,
      ⟨fun h => absurd h (by decide), fun h => absurd h80 (by omega)⟩,
      ⟨fun _ => h80, fun _ => rfl⟩⟩
  · exact ⟨⟨fun h => absurd h (by decide), fun h => absurd h40 (by omega)⟩,
      ⟨fun _ => ⟨h40, by omega⟩, fun _ => rfl⟩,
      ⟨fun h => absurd h (by decide), fun h => absurd h h80⟩⟩
  · exact ⟨⟨fun _ => by omega, fun _ => rfl⟩,
      ⟨fun h => absurd h (by decide), fun h => absurd h.1 h40⟩,
      ⟨fun h => absurd h (by decide), fun h => absurd h h80⟩⟩

/-- C1: in Scanner.scanDirectory the cross-file analyzer is invoked before
any file has been scanned, so the finding set it reads is the initial
(empty) one, while the scan itself later produces a finding for the file:
the Correlator does not operate on the complete, enhanced finding set. -/
theorem c1_correlator_reads_empty_finding_set :
    (scanDirectory plainConfig evilCatalog parseFailure c1Files []).correlatorInput = [] ∧
    (scanDirectory plainConfig evilCatalog parseFailure c1Files []).finalFindings.map
      (fun f => f.base.file) = ["x/a.js".toList] :=
  ⟨by decide, by decide⟩

/-- C2: the scanner relocates each matched substring with
content.indexOf(match), so both occurrences of the matched text are
reported at line 1, while the actual match positions of the matcher lie on
lines 1 and 3: the reported line of the second finding is not 1 plus the
newline count before its actual match start. -/
theorem c2_reported_line_is_first_occurrence_line :
    ((patternFindings plainConfig evilCatalog ("x/a.js".toList) c2Content).map
      (fun f => f.line) = [1, 1]) ∧
    ((literalPositions ("eval(".toList) c2Content).map
      (fun p => getLineNumber c2Content (p : Int)) = [1, 3]) :=
  ⟨by decide, by decide⟩

/-- C3: running analyzeFiles twice over the same files and findings on the
same analyzer differs: the export graph persisted from the first run lets
the second run resolve the import edge from file A to the later file B, so
only the second run attaches a coordinated-attack correlation. -/
theorem c3_rerun_output_differs :
    ((analyzeFiles cstate0 c3Files c3Findings).1.map
      (fun f => f.correlations.map (fun c => c.ctype)) = [[], []]) ∧
    ((analyzeFiles (analyzeFiles cstate0 c3Files c3Findings).2 c3Files c3Findings).1.map
      (fun f => f.correlations.map (fun c => c.ctype)) =
      [["coordinated_attack".toList], ["coordinated_attack".toList]]) ∧
    (analyzeFiles cstate0 c3Files c3Findings).1 ≠
      (analyzeFiles (analyzeFiles cstate0 c3Files c3Findings).2 c3Files c3Findings).1 := by
  have h1 : (analyzeFiles cstate0 c3Files c3Findings).1.map
      (fun f => f.correlations.map (fun c => c.ctype)) = [[], []] := by decide
  have h2 : (analyzeFiles (analyzeFiles cstate0 c3Files c3Findings).2 c3Files c3Findings).1.map
      (fun f => f.correlations.map (fun c => c.ctype)) =
      [["coordinated_attack".toList], ["coordinated_attack".toList]] := by decide
  refine ⟨h1, h2, fun h => ?_⟩
  rw [h, h2] at h1
  exact absurd h1 (by decide)

/-- C4 counterexample: in the file whose only match of the matcher lies in
a comment that begins after code on the same line, the finding IS emitted:
the match index 8 lies after the // opener of its line, yet the scanner
reports it, refuting the claim that a match inside a single-line comment is
never emitted. -/
theorem c4_trailing_comment_match_is_emitted :
    ((patternFindings plainConfig evilCatalog ("x/a.js".toList) c4Content).map
      (fun f => f.matched) = ["eval(".toList]) ∧
    jsIndexOf c4Content ("eval(".toList) = 8 ∧
    containsSub (getLastD (splitOnChar '\n' (substrTo c4Content 8))) ("//".toList) = true :=
  ⟨by decide, by decide, by decide⟩

/-- C4 amended: a match whose first-occurrence position has, on its line
before the position, only whitespace followed by a line-comment marker
(//, #, or a doc star), or has more block-comment openers than closers
before it, is never emitted as a finding for any catalog. -/
theorem c4_amended_safe_context_suppression (cfg : ScanConfig) (cats : List ScanCategory)
    (filePath content m : Str)
    (h : startsWithStr (jsTrim (getLastD (splitOnChar '\n'
          (substrTo content (jsIndexOf content m))))) ['/', '/'] = true ∨
        startsWithStr (jsTrim (getLastD (splitOnChar '\n'
          (substrTo content (jsIndexOf content m))))) ['#'] = true ∨
        startsWithStr (jsTrim (getLastD (splitOnChar '\n'
          (substrTo content (jsIndexOf content m))))) ['*'] = true ∨
        countSub (substrTo content (jsIndexOf content m)) ['/', '*'] >
          countSub (substrTo content (jsIndexOf content m)) ['*', '/']) :
    (patternFindings cfg cats filePath content).countP
      (fun f => decide (f.matched = m)) = 0 := by
  have hsafe : isInSafeContext content (jsIndexOf content m) = true := by
    simp only [isInSafeContext]
    split_ifs with hc
    · rfl
    · rcases h with h | h | h | h
      · simp [h] at hc
      · simp [h] at hc
      · simp [h] at hc
      · simpa using h
  rw [List.countP_eq_zero]
  intro f hf
  simp only [patternFindings, List.mem_flatMap, List.mem_map, List.mem_filter] at hf
  obtain ⟨cat, -, pat, -, m2, ⟨-, hguard⟩, rfl⟩ := hf
  simp only [Bool.and_eq_true, Bool.not_eq_true'] at hguard
  simp only [mkPatternFinding, decide_eq_true_eq]
  intro heq
  rw [heq, hsafe] at hguard
  exact absurd hguard.1 (by simp)

/-- C4 amended, witness: in the two-line file the commented-out spawn
match is suppressed. -/
theorem c4_amended_witness :
    (patternFindings plainConfig evilCatalog ("x/a.js".toList) c4bContent).countP
      (fun f => decide (f.matched = "spawn(".toList)) = 0 :=
  c4_amended_safe_context_suppression plainConfig evilCatalog ("x/a.js".toList)
    c4bContent ("spawn(".toList) (Or.inl (by decide))

/-- C5: a file whose lowered path contains a reserved malicious-fixture
directory name is never suppressed by the test/example heuristic, whatever
the rest of the path or the content holds. -/
theorem c5_fixture_dir_never_suppressed (filePath content pre d suf : Str)
    (hd : d ∈ fixtureDirNames)
    (hpath : toLowerStr filePath = pre ++ (d ++ suf)) :
    isTestOrExample filePath content = false := by
  have hsub : containsSub (toLowerStr filePath) d = true := by
    rw [hpath]
    exact containsSub_append_self pre d suf
  have hcontains : containsAny (toLowerStr filePath) fixtureDirNames = true :=
    List.any_eq_true.mpr ⟨d, hd, hsub⟩
  simp only [isTestOrExample]
  rw [hcontains]
  simp

/-- C5 witness: a path under Test-Evil with test in its name and
test-keyword content is not suppressed. -/
theorem c5_witness :
    isTestOrExample ("pkg/Test-Evil/app-test.js".toList)
      ("an example test case".toList) = false :=
  c5_fixture_dir_never_suppressed ("pkg/Test-Evil/app-test.js".toList)
    ("an example test case".toList) ("pkg/".toList) ("test-evil".toList)
    ("/app-test.js".toList) (by decide) (by decide)

/-- C6: the risk score is the per-severity point sum (critical 100, high
50, medium 20, low 0) capped at 100, it is invariant under permutation of
the findings, the verdict bands are SAFE up to 40, REVIEW up to 80 and
DO NOT INSTALL above, and one critical plus one medium finding scores 100
with verdict DO NOT INSTALL. -/
theorem c6_risk_score_and_verdict :
    (∀ fs : List Finding,
      calculateRiskScore fs = min 100 ((fs.map (fun f => severityPoints f.severity)).sum)) ∧
    (∀ fs fs2 : List Finding, fs.Perm fs2 → calculateRiskScore fs = calculateRiskScore fs2) ∧
    (∀ fs : List Finding,
      (verdict (calculateRiskScore fs) = "SAFE".toList ↔ calculateRiskScore fs ≤ 40) ∧
      (verdict (calculateRiskScore fs) = "REVIEW".toList ↔
        40 < calculateRiskScore fs ∧ calculateRiskScore fs ≤ 80) ∧
      (verdict (calculateRiskScore fs) = "DO NOT INSTALL".toList ↔
        80 < calculateRiskScore fs)) ∧
    calculateRiskScore [findingWithSeverity .critical, findingWithSeverity .medium] = 100 ∧
    verdict (calculateRiskScore [findingWithSeverity .critical, findingWithSeverity .medium]) =
      "DO NOT INSTALL".toList := by
  refine ⟨calculateRiskScore_eq, ?_, fun fs => verdictBands _, by decide, by decide⟩
  intro fs fs2 hperm
  rw [calculateRiskScore_eq, calculateRiskScore_eq]
  congr 1
  exact (hperm.map _).sum_eq

/-- C6 witness: the two sample findings in either order score the same. -/
theorem c6_witness :
    calculateRiskScore [findingWithSeverity .critical, findingWithSeverity .medium] =
      calculateRiskScore [findingWithSeverity .medium, findingWithSeverity .critical] :=
  c6_risk_score_and_verdict.2.1 _ _
    (List.Perm.swap (findingWithSeverity .medium) (findingWithSeverity .critical) [])

/-- C7: for every finding the Semantic Enhancer processes, provided the
threat score is non-zero (as the pipeline guarantees, the || 0.5 fallback
aside), the semantic score equals the threat score multiplied by 0.3 under
test code, 1.5 under user input, 0.7 when not exported and 1.3 under
external data flow, capped at 2.0. -/
theorem c7_semantic_score_formula (a : FileAnalysis) (f : Finding)
    (h : f.threatScore ≠ 0) :
    (enhanceOne a f).semanticScore =
      some (min ((enhanceOne a f).threatScore *
        (if optTrue (enhanceOne a f).isTestCode then 3/10 else 1) *
        (if optTrue (enhanceOne a f).involvesUserInput then 3/2 else 1) *
        (if !(optTrue (enhanceOne a f).isExported) then 7/10 else 1) *
        (if optTrue (enhanceOne a f).hasExternalDataFlow then 13/10 else 1)) 2) := by
  cases h1 : isInTestCode a f.line <;> cases h2 : involvesUserInput a f <;>
    cases h3 : isInExportedFunction a f.line <;> cases h4 : hasExternalDataFlowB a <;>
  · simp only [enhanceOne, calculateSemanticScore, optTrue, Option.getD_some, h1, h2, h3, h4,
      if_neg h, Bool.not_true, Bool.not_false, if_true, if_false, Option.some.injEq,
      Bool.false_eq_true, Bool.true_eq_false, ite_true, ite_false]
    try (congr 1; ring)

/-- C7 witness: the formula applied to a finding with threat score 1 and
the empty analysis. -/
theorem c7_witness :
    (enhanceOne emptyAnalysis (findingWithSeverity .high)).semanticScore =
      some (min ((enhanceOne emptyAnalysis (findingWithSeverity .high)).threatScore *
        (if optTrue (enhanceOne emptyAnalysis (findingWithSeverity .high)).isTestCode
          then 3/10 else 1) *
        (if optTrue (enhanceOne emptyAnalysis (findingWithSeverity .high)).involvesUserInput
          then 3/2 else 1) *
        (if !(optTrue (enhanceOne emptyAnalysis (findingWithSeverity .high)).isExported)
          then 7/10 else 1) *
        (if optTrue (enhanceOne emptyAnalysis (findingWithSeverity .high)).hasExternalDataFlow
          then 13/10 else 1)) 2) :=
  c7_semantic_score_formula emptyAnalysis (findingWithSeverity .high)
    (by norm_num [findingWithSeverity])

/-- C8: a finding is classified test code exactly when its line lies inside
the body range of a function whose name matches the test-naming
alternation, or the file imports a recognized test-framework module - and
never merely because a test keyword appears elsewhere in the file, the
analysis summary being the only input consulted. -/
theorem c8_test_code_iff (a : FileAnalysis) (line : Nat) :
    isInTestCode a line = true ↔
      ((∃ fn ∈ a.functions, testNameRe fn.name = true ∧
          ∃ s e, fn.line = some s ∧ fn.bodyEndLine = some e ∧ s ≤ line ∧ line ≤ e) ∨
        (∃ imp ∈ a.imports, testFrameworkRe imp.source = true)) := by
  have hname : ∀ fn : SFun, testNameRe fn.name = true → fn.name ≠ [] := by
    intro fn hc hnil
    rw [testNameRe, hnil] at hc
    exact absurd hc (by decide)
  have hrange : ∀ fn : SFun, fnRangeContains fn line = true ↔
      ∃ s e, fn.line = some s ∧ fn.bodyEndLine = some e ∧ s ≤ line ∧ line ≤ e := by
    intro fn
    unfold fnRangeContains
    cases he : fn.bodyEndLine with
    | none => simp [he]
    | some fnEnd =>
      cases hs : fn.line with
      | none => simp [hs, he]
      | some fnStart => simp [hs, he]
  simp only [isInTestCode]
  cases hin : (a.functions.filter (fun fn => isTestNamedFunction fn)).any
      (fun fn => fnRangeContains fn line) with
  | true =>
    simp only [hin, if_true, true_iff]
    obtain ⟨fn, hmem, hr⟩ := List.any_eq_true.mp hin
    obtain ⟨hfn, hpred⟩ := List.mem_filter.mp hmem
    rw [isTestNamedFunction, Bool.and_eq_true] at hpred
    exact Or.inl ⟨fn, hfn, hpred.2, (hrange fn).mp hr⟩
  | false =>
    simp only [hin, Bool.false_eq_true, if_false, decide_eq_true_eq]
    constructor
    · intro hlen
      right
      obtain ⟨imp, hmem⟩ := List.length_pos_iff_exists_mem.mp hlen
      obtain ⟨himp, hpred⟩ := List.mem_filter.mp hmem
      exact ⟨imp, himp, hpred⟩
    · rintro (⟨fn, hfn, hmatch, s, e, hs, he, h1, h2⟩ | ⟨imp, himp, hpred⟩)
      · exfalso
        have hany : (a.functions.filter (fun fn => isTestNamedFunction fn)).any
            (fun fn => fnRangeContains fn line) = true := by
          refine List.any_eq_true.mpr ⟨fn, List.mem_filter.mpr ⟨hfn, ?_⟩,
            (hrange fn).mpr ⟨s, e, hs, he, h1, h2⟩⟩
          rw [isTestNamedFunction, Bool.and_eq_true, decide_eq_true_eq]
          exact ⟨hname fn hmatch, hmatch⟩
        rw [hany] at hin
        exact absurd hin (by simp)
      · exact List.length_pos_iff_exists_mem.mpr
          ⟨imp, List.mem_filter.mpr ⟨himp, hpred⟩⟩

/-- C9: a file with an unsupported extension, or whose content fails to
parse, passes through the Semantic Enhancer unchanged: no finding is
dropped, modified or added, and the computation is total. -/
theorem c9_parse_failure_passthrough (filePath : Str) (parsed : Option FileAnalysis)
    (findings : List Finding)
    (h : isSupportedFile filePath = false ∨ parsed = none) :
    analyzeFile filePath parsed findings = findings := by
  rcases h with h | h
  · simp [analyzeFile, h]
  · subst h
    by_cases hs : isSupportedFile filePath <;> simp [analyzeFile, hs]

/-- C9 witness: a parse failure leaves a one-finding set unchanged. -/
theorem c9_witness :
    analyzeFile ("x/a.js".toList) none [findingWithSeverity .high] =
      [findingWithSeverity .high] :=
  c9_parse_failure_passthrough ("x/a.js".toList) none [findingWithSeverity .high]
    (Or.inr rfl)

/-- C10: the Semantic Enhancer never overwrites the provisional severity
field, and both the risk score and the process exit status are computed
from that field alone, so enhancement (and the whole analyzeFile stage)
changes neither. -/
theorem c10_enhancement_preserves_severity_risk_exit (a : FileAnalysis)
    (filePath : Str) (parsed : Option FileAnalysis) (fs : List Finding) :
    ((enhanceFindingsWithSemantics fs a).map (fun f => f.severity) =
      fs.map (fun f => f.severity)) ∧
    calculateRiskScore (enhanceFindingsWithSemantics fs a) = calculateRiskScore fs ∧
    exitStatus (enhanceFindingsWithSemantics fs a) = exitStatus fs ∧
    ((analyzeFile filePath parsed fs).map (fun f => f.severity) =
      fs.map (fun f => f.severity)) ∧
    calculateRiskScore (analyzeFile filePath parsed fs) = calculateRiskScore fs ∧
    exitStatus (analyzeFile filePath parsed fs) = exitStatus fs := by
  have hsev : ∀ a2 : FileAnalysis, (enhanceFindingsWithSemantics fs a2).map
      (fun f => f.severity) = fs.map (fun f => f.severity) := by
    intro a2
    simp only [enhanceFindingsWithSemantics, List.map_map]
    rfl
  have hrisk : ∀ a2 : FileAnalysis, calculateRiskScore (enhanceFindingsWithSemantics fs a2) =
      calculateRiskScore fs := by
    intro a2
    rw [calculateRiskScore_eq, calculateRiskScore_eq]
    congr 1
    simp only [enhanceFindingsWithSemantics, List.map_map]
    rfl
  have hexit : ∀ a2 : FileAnalysis, exitStatus (enhanceFindingsWithSemantics fs a2) =
      exitStatus fs := by
    intro a2
    have hc : ∀ sev : Severity,
        ((enhanceFindingsWithSemantics fs a2).filter (fun f => f.severity = sev)).length =
          (fs.filter (fun f => f.severity = sev)).length := by
      intro sev
      simp only [enhanceFindingsWithSemantics]
      rw [← List.countP_eq_length_filter, ← List.countP_eq_length_filter, List.countP_map]
      rfl
    simp only [exitStatus]
    rw [hc, hc]
  refine ⟨hsev a, hrisk a, hexit a, ?_, ?_, ?_⟩ <;>
    (unfold analyzeFile
     cases parsed <;> by_cases hs : isSupportedFile filePath <;>
       simp [hs, hsev, hrisk, hexit])

end Snitch
